import Mathlib

/-!
Verification development for the Link2Vid download API handler
(`pages/api` download route; the handler, its rate limiter, concurrency
gate, result cache, retry wrapper and cleanup closure).

The TypeScript source is shallowly embedded: pure helper functions become
Lean functions; the process-wide mutable state (`activeDownloads`, the
rate-limit table, the video cache, and the set of files on disk) becomes
an explicit `ServerState` record threaded through the functions; the
single-threaded event loop lets each synchronous run-to-completion block
be modelled as one atomic state transformation. Timestamps are `Nat`
milliseconds. External effects (URL parsing, sha256 cache keys, the
`youtube-dl-exec` subprocess, timers) are supplied as inputs/oracles.
-/

namespace Link2Vid

/-! ## Configuration constants (the `config` object in the source) -/

/-- Rate-limit window: `15 * 60 * 1000` ms. -/
def windowMs : Nat := 15 * 60 * 1000

/-- Max downloads per window per IP: `config.rateLimit.maxRequests`. -/
def maxRequests : Nat := 5

/-- Max simultaneous downloads: `config.maxConcurrentDownloads`. -/
def maxConcurrent : Nat := 3

/-- Retry attempts: `config.maxRetries`. -/
def maxRetries : Nat := 2

/-- Base backoff delay in ms: `config.retryDelay`. -/
def retryDelay : Nat := 3000

/-- Per-attempt timeout in ms: `config.downloadTimeoutMs`. -/
def downloadTimeoutMs : Nat := 5 * 60 * 1000

/-- Admission wait ceiling in ms (`maxWaitTime` in `waitForSlot`). -/
def maxWaitTime : Nat := 60000

/-- Poll interval in ms (`checkInterval` in `waitForSlot`). -/
def checkInterval : Nat := 1000

/-- The allow-listed domains, `config.allowedDomains`. -/
def allowedDomains : List String :=
  ["youtube.com", "youtu.be", "instagram.com", "facebook.com",
   "twitter.com", "x.com", "tiktok.com", "twitch.tv"]

/-! ## Small helpers -/

/-- JS `s.toLowerCase()` (over the character list, so the kernel can
evaluate it). -/
def lowerStr (s : String) : String := ⟨s.data.map Char.toLower⟩

/-- JS `s.includes(sub)`: `sub` occurs as a contiguous substring of `s`. -/
def strIncludes (s sub : String) : Bool :=
  (List.range (s.data.length + 1)).any fun i => sub.data.isPrefixOf (s.data.drop i)

/-- JS `s.endsWith(suf)`. -/
def strEndsWith (s suf : String) : Bool := suf.data.isSuffixOf s.data

/-- Overwriting insertion into an association list, modelling
`NodeCache.set` (the new value replaces any entry with the same key). -/
def cacheSet {α : Type} (t : List (String × α)) (k : String) (v : α) :
    List (String × α) :=
  (k, v) :: t.eraseP (fun p => p.1 == k)

/-! ## Rate limiter (`checkRateLimit`) -/

/-- The per-client window record stored in `rateLimitCache`:
`{ count, firstRequest }`. -/
structure RateData where
  count : Nat
  firstRequest : Nat
deriving DecidableEq

/-- Result of `checkRateLimit`: `{ allowed, retryAfter? }`. -/
structure RateLimitResult where
  allowed : Bool
  retryAfter : Option Nat
deriving DecidableEq

/-- The fixed-window rate limiter `checkRateLimit(clientIP)`.  The mutable
`rateLimitCache` is passed in and returned as an association list keyed by
`"rate_" ++ clientIP`; `now` is `Date.now()`.  `Math.ceil(x / 1000)` on the
non-negative integer `x = windowMs - (now - firstRequest)` is
`(x + 999) / 1000` in `Nat`. -/
def checkRateLimit (table : List (String × RateData)) (clientIP : String)
    (now : Nat) : RateLimitResult × List (String × RateData) :=
  match table.lookup ("rate_" ++ clientIP) with
  | none =>
      (⟨true, none⟩, cacheSet table ("rate_" ++ clientIP) ⟨1, now⟩)
  | some rd =>
      if now - rd.firstRequest > windowMs then
        (⟨true, none⟩, cacheSet table ("rate_" ++ clientIP) ⟨1, now⟩)
      else if rd.count ≥ maxRequests then
        (⟨false, some ((windowMs - (now - rd.firstRequest) + 999) / 1000)⟩,
          table)
      else
        (⟨true, none⟩,
          cacheSet table ("rate_" ++ clientIP)
            ⟨rd.count + 1, rd.firstRequest⟩)

/-- Run a sequence of `checkRateLimit` calls for one client at the given
timestamps, threading the table; returns the per-call results and the
final table. -/
def runRateCalls (table : List (String × RateData)) (clientIP : String) :
    List Nat → List RateLimitResult × List (String × RateData)
  | [] => ([], table)
  | t :: ts =>
      let step := checkRateLimit table clientIP t
      let rest := runRateCalls step.2 clientIP ts
      (step.1 :: rest.1, rest.2)

/-! ## Client identification (`getClientIP`) -/

/-- The `x-forwarded-for` header as Node delivers it: either a single
string or an array of strings.  `Option.none` at the call site models a
missing (or falsy) header. -/
inductive ForwardedHeader where
  | str (s : String)
  | arr (l : List String)

/-- The function `getClientIP(req)`: take the first entry of
`x-forwarded-for` when present, else `req.connection.remoteAddress`, else
the literal string `"unknown"`.  (For an array header JS reads index 0;
Node never produces an empty header array, so the `[]` default is
unreachable.) -/
def getClientIP (forwarded : Option ForwardedHeader)
    (remoteAddress : Option String) : String :=
  match forwarded with
  | some (.str s) => ⟨s.data.takeWhile (fun c => c != ',')⟩
  | some (.arr l) => l.headD "undefined"
  | none => remoteAddress.getD "unknown"

/-! ## Domain allow-list (`isAllowedDomain`) -/

/-- The function `isAllowedDomain(url)`.  `new URL(url)` is external, so
the parse result is the input: `none` when parsing throws (return
`false`), `some host` otherwise; the code lowercases the hostname and
accepts an exact match or a dot-subdomain of an allow-listed domain. -/
def isAllowedDomain (parsedHost : Option String) : Bool :=
  match parsedHost with
  | none => false
  | some host =>
      let hostname := lowerStr host
      allowedDomains.any fun domain =>
        hostname == domain || strEndsWith hostname ("." ++ domain)

/-! ## Error classification (the `catch` block's status mapping) -/

/-- The handler's catch-block mapping from `error.message` to the HTTP
status code (`statusCode` in the source); tested in source order on the
lowercased message. -/
def classifyError (msg : String) : Nat :=
  let m := lowerStr msg
  if strIncludes m "server too busy" then 503
  else if strIncludes m "timed out" then 408
  else if strIncludes m "unsupported url" then 400
  else if strIncludes m "video unavailable" then 404
  else if strIncludes m "file too large" then 413
  else if strIncludes m "network" || strIncludes m "connection" then 503
  else if strIncludes m "rate" || strIncludes m "429" then 429
  else 500


/-! ## Process state -/

/-- A `videoCache` entry: `{ filePath, filename, contentType, size }`. -/
structure CachedVideo where
  filePath : String
  filename : String
  contentType : String
  size : Nat
deriving DecidableEq

/-- The process-wide mutable state touched by the handler: the module-level
`activeDownloads` counter (an `Int`, since the JS number could in principle
go negative and the code guards against that), the two `NodeCache` tables,
and the set of files on disk (modelling `existsSync`/`unlinkSync`). -/
structure ServerState where
  active : Int
  rateTable : List (String × RateData)
  videoCache : List (String × CachedVideo)
  files : List String
deriving DecidableEq

/-! ## Idempotent cleanup (`createCleanupFunction`) -/

/-- The closure returned by `createCleanupFunction(outputPath)`: it
captures `outputPath` and the mutable flag `cleaned`. -/
structure CleanupClosure where
  path : String
  cleaned : Bool
deriving DecidableEq

/-- One invocation of the cleanup closure.  If `cleaned` is already set,
return immediately; otherwise set it, delete the captured file when the
path is truthy (non-empty) and the file exists, and then (in the
`finally`) decrement `activeDownloads` only when it is positive. -/
def runCleanup (c : CleanupClosure) (st : ServerState) :
    CleanupClosure × ServerState :=
  if c.cleaned then (c, st)
  else
    let st1 := if c.path ≠ "" ∧ c.path ∈ st.files then
        { st with files := st.files.erase c.path } else st
    let st2 := if st1.active > 0 then
        { st1 with active := st1.active - 1 } else st1
    ({ c with cleaned := true }, st2)

/-- A sequence of invocations of (possibly distinct) cleanup closures
against the shared state, returning the final state. -/
def runCleanups : List CleanupClosure → ServerState → ServerState
  | [], st => st
  | c :: cs, st => runCleanups cs (runCleanup c st).2

/-! ## Concurrency gate (`waitForSlot` and the increment/decrement pair) -/

/-- One poll step of `waitForSlot`, iterated on the poll index `k` (poll
`k` happens at elapsed time `k * checkInterval`): if `activeDownloads <
maxConcurrent` the loop exits (`some k`); otherwise, if the elapsed time
exceeds `maxWaitTime`, throw the Busy error (`none`); otherwise sleep
`checkInterval` and re-check.  The `fuel` argument only bounds the
recursion: the deadline check stops the loop after at most 62 polls, so
`waitForSlot` below supplies fuel 62 and the `fuel = 0` case is
unreachable. -/
def waitForSlotGo (active : Nat → Nat) (k : Nat) : Nat → Option Nat
  | 0 => none
  | fuel + 1 =>
      if active k < maxConcurrent then some k
      else if k * checkInterval > maxWaitTime then none
      else waitForSlotGo active (k + 1) fuel

/-- `waitForSlot()`, run against the trace `active` giving the value of
`activeDownloads` observed at each poll; `some k` means the wait returned
after poll `k`, `none` means it threw the Busy error. -/
def waitForSlot (active : Nat → Nat) : Option Nat :=
  waitForSlotGo active 0 62

/-- The message of the error `waitForSlot` throws. -/
def busyMessage : String := "Server too busy. Please try again later."

/-- One atomic transition of the `activeDownloads` counter.  `acquire` is
the final (successful) `waitForSlot` check together with the
`activeDownloads++` that the handler performs when the wait returns — in
the single-threaded event loop the resumed continuation runs without
interleaving another request, so the check and increment form one step.
`release` is the guarded decrement in the cleanup closure. -/
inductive GateStep : Int → Int → Prop
  | acquire {a : Int} : a < (maxConcurrent : Int) → GateStep a (a + 1)
  | release {a : Int} : GateStep a (if a > 0 then a - 1 else a)

/-- Counter values reachable from process start (`activeDownloads = 0`)
by admissions and releases. -/
inductive GateReachable : Int → Prop
  | init : GateReachable 0
  | step {a b : Int} : GateReachable a → GateStep a b → GateReachable b

/-! ## Retry wrapper (`retryOperation`) -/

/-- The observed outcome of racing one attempt of the operation against
the attempt's fresh `timeoutMs` timer: the operation wins with a value,
the operation wins with an error, or the timer wins. -/
inductive RaceOutcome (T : Type) where
  | value (v : T)
  | opError (msg : String)
  | timeout
deriving DecidableEq

/-- The result `Promise.race([operation(), timeoutPromise])` settles with:
a timer win rejects with the error `"Operation timed out"`. -/
def raceResult {T : Type} : RaceOutcome T → Except String T
  | .value v => .ok v
  | .opError e => .error e
  | .timeout => .error "Operation timed out"

/-- `retryOperation(operation, maxRetries, delay, timeoutMs)`.  The list
holds the race outcome of each attempt the loop would run (its length is
`maxRetries`, assumed ≥ 1 as in every call site); `attempt` is the
1-based loop counter.  Returns the overall result (`throw lastError` when
every attempt failed) together with the list of backoff waits performed:
after a failed attempt numbered `attempt` with attempts remaining the
code sleeps `delay * attempt` ms. -/
def retryOperation {T : Type} (delay : Nat) (attempt : Nat) :
    List (RaceOutcome T) → Except String T × List Nat
  | [] => (.error "Operation timed out", [])
  | o :: rest =>
      match raceResult o, rest with
      | .ok v, _ => (.ok v, [])
      | .error e, [] => (.error e, [])
      | .error _, r :: rs =>
          let k := retryOperation delay (attempt + 1) (r :: rs)
          (k.1, delay * attempt :: k.2)

/-! ## Extraction invoker (the operation passed to `retryOperation`) -/

/-- Outcome of one `youtubedl(url, opts)` subprocess invocation. -/
inductive YtdlOutcome where
  | ok (file : String)
  | err (msg : String)
deriving DecidableEq

/-- One call of the async closure the handler passes to `retryOperation`:
try the primary format `best[height<=720]/best`; if it throws and the
message contains `"Requested format is not available"`, invoke `youtubedl`
once more with format `best` and return its outcome; otherwise rethrow.
The inputs are the outcomes the subprocess would produce for the primary
and the fallback invocation; the second component counts how many fallback
invocations the call performed. -/
def extractionAttempt (primary fallback : YtdlOutcome) :
    Except String String × Nat :=
  match primary with
  | .ok f => (.ok f, 0)
  | .err msg =>
      if strIncludes msg "Requested format is not available" then
        match fallback with
        | .ok f => (.ok f, 1)
        | .err m => (.error m, 1)
      else (.error msg, 0)

/-- The extraction closure as rerun by `retryOperation` (no attempt
timeout firing): each list element gives the (primary, fallback) outcomes
for one attempt; the list has length `maxRetries`.  Returns the overall
result and the total number of fallback (`format: 'best'`) invocations
performed across the whole request. -/
def runExtractionRetry : List (YtdlOutcome × YtdlOutcome) →
    Except String String × Nat
  | [] => (.error "Operation timed out", 0)
  | (p, f) :: rest =>
      match extractionAttempt p f with
      | (.ok v, n) => (.ok v, n)
      | (.error e, n) =>
          if rest.isEmpty then (.error e, n)
          else ((runExtractionRetry rest).1, n + (runExtractionRetry rest).2)

/-! ## The request handler (validation, rate limit, cache, admission) -/

/-- The responses the handler can produce on the paths modelled here.
`cacheHit` carries the headers set on the cached path, in particular
`X-Cache` and `X-Download-Time`. -/
inductive Response where
  | methodNotAllowed
  | badRequest (msg : String)
  | rateLimited (retryAfter : Nat)
  | cacheHit (contentType : String) (size : Nat) (filename : String)
      (xCache : String) (xDownloadTime : String)
  | errorResponse (statusCode : Nat) (msg : String)
  | streamed (filename : String)
deriving DecidableEq

/-- The handler from its entry through the cache lookup.  Inputs: the
request method, whether a string `url` field was present in the body
(`hasUrl`), the hostname `new URL(url)` yields (`none` when parsing
throws), the derived client IP, `Date.now()`, the sha256 cache key of the
url (the hash itself is external), and the continuation `dl` modelling
everything from `waitForSlot()` on (slot acquisition, extraction,
streaming).  Returns the response, the post-state, and the number of
extraction-tool invocations made.  Order of checks follows the source:
method, url presence, url parse, domain allow-list, rate limit, cache;
only the cache-miss path runs `dl`.  On denial the 429 body carries
`rateLimitResult.retryAfter || 900` (JS `||`: `0` falls back to `900`). -/
def handler (st : ServerState) (method : String) (hasUrl : Bool)
    (parsedHost : Option String) (clientIP : String) (now : Nat)
    (cacheKey : String)
    (dl : ServerState → String → Response × ServerState × Nat) :
    Response × ServerState × Nat :=
  if method ≠ "POST" then (.methodNotAllowed, st, 0)
  else if ¬ hasUrl then (.badRequest "URL parameter is required", st, 0)
  else
    match parsedHost with
    | none => (.badRequest "Invalid URL format", st, 0)
    | some host =>
        if ¬ isAllowedDomain (some host) then
          (.badRequest "Domain not supported", st, 0)
        else
          let rl := checkRateLimit st.rateTable clientIP now
          if rl.1.allowed = false then
            (.rateLimited
              (match rl.1.retryAfter with
               | some r => if r = 0 then 900 else r
               | none => 900),
              { st with rateTable := rl.2 }, 0)
          else
            let st1 := { st with rateTable := rl.2 }
            match st1.videoCache.lookup cacheKey with
            | some cv =>
                if cv.filePath ∈ st1.files then
                  (.cacheHit cv.contentType cv.size cv.filename "HIT" "0",
                    st1, 0)
                else dl st1 cacheKey
            | none => dl st1 cacheKey

/-- The handler's `catch` block, restricted to its state effects.  If the
`cleanup` closure was created (streaming stage reached), invoke it.
Otherwise, if `outputPath` was assigned and the file exists, delete it and
set `activeDownloads = Math.max(0, activeDownloads - 1)`.  When neither
holds — in particular when the error was thrown after `activeDownloads++`
but before any output file was found — the state is left untouched. -/
def catchBlock (cleanup : Option CleanupClosure) (outputPath : Option String)
    (st : ServerState) : ServerState :=
  match cleanup with
  | some c => (runCleanup c st).2
  | none =>
      match outputPath with
      | some p =>
          if p ∈ st.files then
            { st with files := st.files.erase p,
                      active := max 0 (st.active - 1) }
          else st
      | none => st

/-! ## Helper lemmas -/

/-- A single cleanup invocation keeps `activeDownloads` non-negative. -/
theorem runCleanup_active_nonneg (c : CleanupClosure) (st : ServerState)
    (h : 0 ≤ st.active) : 0 ≤ (runCleanup c st).2.active := by
  unfold runCleanup
  split
  · exact h
  · dsimp only
    split
    all_goals split
    all_goals simp_all
    all_goals omega

/-- Any sequence of cleanup invocations keeps `activeDownloads`
non-negative. -/
theorem runCleanups_active_nonneg (cs : List CleanupClosure)
    (st : ServerState) (h : 0 ≤ st.active) :
    0 ≤ (runCleanups cs st).active := by
  induction cs generalizing st with
  | nil => exact h
  | cons c cs ih =>
      exact ih _ (runCleanup_active_nonneg c st h)

/-- The closure returned by a cleanup invocation always has its `cleaned`
flag set. -/
theorem runCleanup_fst_cleaned (c : CleanupClosure) (st : ServerState) :
    (runCleanup c st).1.cleaned = true := by
  unfold runCleanup
  split
  · assumption
  · rfl

/-- Invoking a cleanup closure whose flag is already set changes
nothing. -/
theorem runCleanup_cleaned_id (c : CleanupClosure) (st : ServerState)
    (h : c.cleaned = true) : runCleanup c st = (c, st) := by
  unfold runCleanup
  simp [h]

/-- C1: the claim says every error exit taken after the concurrency slot
was acquired decrements `activeDownloads` — including failures where the
extraction tool produced no artifact and `outputPath` was never assigned.
The code does not: in that situation `cleanup` is `undefined` and
`outputPath` is `undefined`, so the catch block runs neither cleanup
branch and leaves the state — in particular the incremented counter —
untouched.  Evaluated at the failing input (one slot held, no artifact),
`activeDownloads` stays 1. -/
theorem catch_without_output_path_leaks_slot (st : ServerState) :
    catchBlock none none st = st
    ∧ (catchBlock none none
        { active := 1, rateTable := [], videoCache := [], files := [] }).active
        = 1 := by
  constructor
  · rfl
  · rfl

/-- C3: the cleanup action is idempotent — a second (or any later)
invocation leaves `activeDownloads` and the filesystem exactly as the
first left them — and no sequence of cleanup invocations ever drives
`activeDownloads` below zero. -/
theorem cleanup_idempotent_and_nonneg (c : CleanupClosure)
    (st : ServerState) (cs : List CleanupClosure) (h : 0 ≤ st.active) :
    runCleanup (runCleanup c st).1 (runCleanup c st).2 = runCleanup c st
    ∧ 0 ≤ (runCleanup c st).2.active
    ∧ 0 ≤ (runCleanups cs st).active := by
  refine ⟨?_, runCleanup_active_nonneg c st h, runCleanups_active_nonneg cs st h⟩
  rw [runCleanup_cleaned_id _ _ (runCleanup_fst_cleaned c st)]

/-- Witness for C3 at a concrete closure and state: one slot held, the
captured file present; the first invocation deletes the file and
decrements, the second changes nothing. -/
theorem cleanup_idempotent_and_nonneg_witness :
    (0 : Int) ≤ (1 : Int)
    ∧ (runCleanup ⟨"/tmp/a.mp4", false⟩
        ⟨1, [], [], ["/tmp/a.mp4"]⟩ = (⟨"/tmp/a.mp4", true⟩, ⟨0, [], [], []⟩)
      ∧ runCleanup (runCleanup ⟨"/tmp/a.mp4", false⟩ ⟨1, [], [], ["/tmp/a.mp4"]⟩).1
          (runCleanup ⟨"/tmp/a.mp4", false⟩ ⟨1, [], [], ["/tmp/a.mp4"]⟩).2
        = runCleanup ⟨"/tmp/a.mp4", false⟩ ⟨1, [], [], ["/tmp/a.mp4"]⟩) := by
  have h := cleanup_idempotent_and_nonneg ⟨"/tmp/a.mp4", false⟩
    ⟨1, [], [], ["/tmp/a.mp4"]⟩ [] (by decide)
  exact ⟨by decide, by decide, h.1⟩

/-- When every poll observes `activeDownloads ≥ maxConcurrent`, the
`waitForSlot` loop ends in the Busy throw regardless of the poll index or
remaining fuel. -/
theorem waitForSlotGo_all_busy (active : Nat → Nat)
    (h : ∀ j, maxConcurrent ≤ active j) :
    ∀ fuel k, waitForSlotGo active k fuel = none := by
  intro fuel
  induction fuel with
  | zero => intro k; rfl
  | succ n ih =>
      intro k
      unfold waitForSlotGo
      rw [if_neg (by have := h k; omega)]
      split
      · rfl
      · exact ih (k + 1)

/-- If the first `k` polls are busy and poll `k` (with `k ≤ 61`, so no
earlier poll passed the deadline) observes a free slot, the loop exits at
poll `k`. -/
theorem waitForSlotGo_frees (active : Nat → Nat) (k : Nat) (hk : k ≤ 61)
    (hfree : active k < maxConcurrent)
    (hbusy : ∀ j, j < k → maxConcurrent ≤ active j) :
    ∀ fuel j, j ≤ k → k - j < fuel → waitForSlotGo active j fuel = some k := by
  intro fuel
  induction fuel with
  | zero => intro j _ h; omega
  | succ n ih =>
      intro j hj hlt
      unfold waitForSlotGo
      rcases Nat.eq_or_lt_of_le hj with rfl | hjk
      · rw [if_pos hfree]
      · rw [if_neg (by have := hbusy j hjk; omega)]
        rw [if_neg (by simp only [checkInterval, maxWaitTime]; omega)]
        exact ih (j + 1) hjk (by omega)

/-- C2: under the atomic-admission model of the gate (the final
`waitForSlot` check and the `activeDownloads++` form one event-loop
step), every reachable value of `activeDownloads` is at most
`maxConcurrent = 3`.  An arrival that observes every poll busy spins at
the fixed `checkInterval` and throws the Busy error once the elapsed time
exceeds `maxWaitTime = 60000` ms; a poll that observes a free slot before
the deadline exits the wait; and the Busy error's message is mapped by
the catch block to HTTP 503. -/
theorem gate_bounded_and_busy_maps_503 (a : Int) (hr : GateReachable a)
    (activeB : Nat → Nat) (hbusy : ∀ j, maxConcurrent ≤ activeB j)
    (activeF : Nat → Nat) (k : Nat) (hk : k ≤ 61)
    (hfree : activeF k < maxConcurrent)
    (hbefore : ∀ j, j < k → maxConcurrent ≤ activeF j) :
    a ≤ (maxConcurrent : Int)
    ∧ waitForSlot activeB = none
    ∧ waitForSlot activeF = some k
    ∧ classifyError busyMessage = 503 := by
  refine ⟨?_, waitForSlotGo_all_busy activeB hbusy 62 0,
    waitForSlotGo_frees activeF k hk hfree hbefore 62 0 (Nat.zero_le k)
      (by omega), by decide⟩
  induction hr with
  | init => decide
  | step _ hstep ih =>
      cases hstep with
      | acquire hlt => omega
      | release => split <;> omega

/-- Witness for C2: `activeDownloads = 1` is reachable by one admission
and is ≤ 3; a trace stuck at 3 ends Busy; a trace free at poll 0 is
admitted at poll 0; the Busy message maps to 503. -/
theorem gate_bounded_and_busy_maps_503_witness :
    (1 : Int) ≤ (maxConcurrent : Int)
    ∧ waitForSlot (fun _ => 3) = none
    ∧ waitForSlot (fun _ => 0) = some 0
    ∧ classifyError busyMessage = 503 := by
  have h0 : GateReachable ((0 : Int) + 1) :=
    GateReachable.step GateReachable.init (GateStep.acquire (by decide))
  have h := gate_bounded_and_busy_maps_503 ((0 : Int) + 1) h0
    (fun _ => 3) (fun j => by show maxConcurrent ≤ 3; decide)
    (fun _ => 0) 0 (by decide) (by decide) (fun j hj => by omega)
  simpa using h

/-- Running the retry loop over a prefix of failed attempts: the result is
that of the loop continued on the tail with the attempt counter advanced,
and the loop performs one backoff wait of `delay * (attempt + i)` after
each failed attempt of the prefix. -/
theorem retryOperation_failed_run {T : Type} (delay : Nat)
    (fails : List (RaceOutcome T)) (tail : List (RaceOutcome T))
    (hf : ∀ o ∈ fails, ∀ w, raceResult o ≠ .ok w) (ht : tail ≠ []) :
    ∀ attempt,
      retryOperation delay attempt (fails ++ tail)
        = ((retryOperation delay (attempt + fails.length) tail).1,
           (List.range fails.length).map (fun i => delay * (attempt + i))
             ++ (retryOperation delay (attempt + fails.length) tail).2) := by
  induction fails with
  | nil => intro attempt; simp
  | cons o fails ih =>
      intro attempt
      obtain ⟨e, he⟩ : ∃ e, raceResult o = .error e := by
        cases hro : raceResult o with
        | ok w => exact absurd hro (hf o (List.mem_cons_self o fails) w)
        | error e => exact ⟨e, rfl⟩
      have hne : fails ++ tail ≠ [] := by
        intro hnil
        exact ht (List.append_eq_nil.mp hnil).2
      obtain ⟨r0, rs, hrr⟩ : ∃ r0 rs, fails ++ tail = r0 :: rs := by
        cases hc : fails ++ tail with
        | nil => exact absurd hc hne
        | cons r0 rs => exact ⟨r0, rs, rfl⟩
      have step : retryOperation delay attempt (o :: (fails ++ tail))
          = ((retryOperation delay (attempt + 1) (fails ++ tail)).1,
             delay * attempt
               :: (retryOperation delay (attempt + 1) (fails ++ tail)).2) := by
        rw [hrr]
        simp [retryOperation, he]
      rw [List.cons_append, step, ih (fun o ho w => hf o (List.mem_cons_of_mem _ ho) w)]
      have harith : attempt + 1 + fails.length = attempt + (fails.length + 1) := by
        omega
      simp only [List.length_cons, List.range_succ_eq_map, List.map_cons,
        List.map_map, harith, Nat.add_zero, Prod.mk.injEq, List.cons.injEq,
        true_and, List.cons_append, List.append_cancel_right_eq]
      apply List.map_congr_left
      intro i _
      simp only [Function.comp_apply]
      congr 1
      omega

/-- C8: each attempt of `retryOperation` is raced against a fresh
`timeoutMs` timer, a timer win producing the failed-attempt error
`"Operation timed out"`; after the failed attempt numbered `i` (with
attempts remaining) the wrapper sleeps `delay * i` — the waits over a run
are `delay*1, delay*2, …` — and when every attempt fails the error of the
last attempt is propagated unchanged. -/
theorem retry_timeout_backoff_last_error {T : Type} (delay : Nat) (v : T)
    (e : String) (fails rest : List (RaceOutcome T)) (lastO : RaceOutcome T)
    (hf : ∀ o ∈ fails, ∀ w, raceResult o ≠ .ok w)
    (hl : raceResult lastO = .error e) :
    raceResult (RaceOutcome.timeout : RaceOutcome T)
        = .error "Operation timed out"
    ∧ retryOperation delay 1 (fails ++ RaceOutcome.value v :: rest)
        = (.ok v, (List.range fails.length).map (fun i => delay * (1 + i)))
    ∧ retryOperation delay 1 (fails ++ [lastO])
        = (.error e, (List.range fails.length).map (fun i => delay * (1 + i))) := by
  refine ⟨rfl, ?_, ?_⟩
  · rw [retryOperation_failed_run delay fails _ hf (by simp) 1]
    simp [retryOperation, raceResult]
  · rw [retryOperation_failed_run delay fails _ hf (by simp) 1]
    simp [retryOperation, hl]

/-- Witness for C8: a first attempt lost to the timer, then a successful
run and an error run; backoff `delay * 1` after the failed first
attempt. -/
theorem retry_timeout_backoff_last_error_witness :
    raceResult (RaceOutcome.timeout : RaceOutcome Nat)
        = .error "Operation timed out"
    ∧ retryOperation 3000 1
        [RaceOutcome.timeout, RaceOutcome.value 42] = (.ok 42, [3000])
    ∧ retryOperation 3000 1
        ([RaceOutcome.timeout, RaceOutcome.opError "boom"] : List (RaceOutcome Nat))
        = (.error "boom", [3000]) := by
  have h := retry_timeout_backoff_last_error (T := Nat) 3000 42 "boom"
    [RaceOutcome.timeout] [] (RaceOutcome.opError "boom")
    (by intro o ho w; simp at ho; subst ho; simp [raceResult]) rfl
  simpa using h

/-- An extraction environment in which every primary invocation fails
with the format-unavailable message and every fallback invocation also
fails: the retry wrapper then reruns the whole closure, so the request
makes `maxRetries = 2` fallback invocations. -/
def formatFailEnv : List (YtdlOutcome × YtdlOutcome) :=
  [(.err "ERROR: Requested format is not available", .err "Unable to download video"),
   (.err "ERROR: Requested format is not available", .err "Unable to download video")]

/-- C4 counterexample: over a whole request whose two retry attempts each
hit the format-unavailable primary failure and whose fallbacks fail, the
fallback selector `best` is invoked twice — refuting "over the whole
request, no more than one fallback invocation occurs". -/
theorem fallback_twice_over_request :
    (runExtractionRetry formatFailEnv).2 = 2
    ∧ ¬ (runExtractionRetry formatFailEnv).2 ≤ 1 := by decide

/-- Unfolding equation for `runExtractionRetry` on a non-empty attempt
list. -/
theorem runExtractionRetry_cons (p f : YtdlOutcome)
    (rest : List (YtdlOutcome × YtdlOutcome)) :
    runExtractionRetry ((p, f) :: rest)
      = match extractionAttempt p f with
        | (.ok v, n) => (.ok v, n)
        | (.error e, n) =>
            if rest.isEmpty then (.error e, n)
            else ((runExtractionRetry rest).1,
              n + (runExtractionRetry rest).2) := rfl

/-- A single call of the extraction closure performs at most one fallback
invocation, and performs one exactly when the primary invocation failed
with a message containing the format-unavailable marker. -/
theorem extractionAttempt_fallback_iff (p f : YtdlOutcome) :
    (extractionAttempt p f).2 ≤ 1
    ∧ ((extractionAttempt p f).2 = 1 ↔
        ∃ msg, p = .err msg
          ∧ strIncludes msg "Requested format is not available" = true) := by
  cases p with
  | ok file => simp [extractionAttempt]
  | err msg =>
      cases f with
      | ok file =>
          by_cases hm : strIncludes msg "Requested format is not available" = true
          · simp [extractionAttempt, hm]
          · simp only [Bool.not_eq_true] at hm
            simp [extractionAttempt, hm]
      | err m2 =>
          by_cases hm : strIncludes msg "Requested format is not available" = true
          · simp [extractionAttempt, hm]
          · simp only [Bool.not_eq_true] at hm
            simp [extractionAttempt, hm]

/-- Across a whole request the number of fallback invocations is bounded
by the number of attempts the retry wrapper runs. -/
theorem runExtractionRetry_count_le (env : List (YtdlOutcome × YtdlOutcome)) :
    (runExtractionRetry env).2 ≤ env.length := by
  induction env with
  | nil => simp [runExtractionRetry]
  | cons pf rest ih =>
      obtain ⟨p, f⟩ := pf
      have h1 := (extractionAttempt_fallback_iff p f).1
      rw [runExtractionRetry_cons]
      cases hres : extractionAttempt p f with
      | mk r n =>
          rw [hres] at h1
          cases r with
          | ok v => simp only [List.length_cons]; omega
          | error e =>
              cases rest with
              | nil => simpa using h1
              | cons r0 rs =>
                  simp only [List.isEmpty_cons, if_false, Bool.false_eq_true,
                    List.length_cons]
                  simp only [List.length_cons] at ih
                  omega

/-- C4 amended: each executed attempt makes at most one fallback
invocation, and makes exactly one precisely when its primary invocation
failed with the format-unavailable message; when the first attempt's
fallback succeeds the whole request makes exactly one fallback
invocation; but the retry wrapper may rerun the closure, so over the
whole request the number of fallback invocations is bounded by the number
of attempts (`maxRetries = 2`), not by one. -/
theorem fallback_once_per_attempt (p f : YtdlOutcome)
    (env : List (YtdlOutcome × YtdlOutcome)) (m file : String)
    (hm : strIncludes m "Requested format is not available" = true) :
    (extractionAttempt p f).2 ≤ 1
    ∧ ((extractionAttempt p f).2 = 1 ↔
        ∃ msg, p = .err msg
          ∧ strIncludes msg "Requested format is not available" = true)
    ∧ (runExtractionRetry env).2 ≤ env.length
    ∧ runExtractionRetry ((.err m, .ok file) :: env) = (.ok file, 1) := by
  refine ⟨(extractionAttempt_fallback_iff p f).1,
    (extractionAttempt_fallback_iff p f).2,
    runExtractionRetry_count_le env, ?_⟩
  rw [runExtractionRetry_cons]
  have ha : extractionAttempt (.err m) (.ok file) = (.ok file, 1) := by
    simp [extractionAttempt, hm]
  rw [ha]

/-- Witness for C4's amended statement at a concrete environment: a
format-unavailable primary failure followed by a successful fallback. -/
theorem fallback_once_per_attempt_witness :
    (extractionAttempt (.err "Requested format is not available") (.ok "v.mp4")).2 ≤ 1
    ∧ ((extractionAttempt (.err "Requested format is not available") (.ok "v.mp4")).2 = 1 ↔
        ∃ msg, (YtdlOutcome.err "Requested format is not available") = .err msg
          ∧ strIncludes msg "Requested format is not available" = true)
    ∧ (runExtractionRetry []).2 ≤ ([] : List (YtdlOutcome × YtdlOutcome)).length
    ∧ runExtractionRetry
        [(.err "Requested format is not available", .ok "v.mp4")]
        = (.ok "v.mp4", 1) :=
  fallback_once_per_attempt (.err "Requested format is not available")
    (.ok "v.mp4") [] "Requested format is not available" "v.mp4" (by decide)

/-- First sight of a client: a window with count 1 is created and the
call is allowed. -/
theorem checkRateLimit_first (ip : String) (now : Nat) :
    checkRateLimit [] ip now
      = (⟨true, none⟩, [("rate_" ++ ip, ⟨1, now⟩)]) := rfl

/-- A call inside the window with spare quota increments the count,
keeping the window anchor, and is allowed. -/
theorem checkRateLimit_incr (ip : String) (t0 now c : Nat)
    (hc : c < maxRequests) (hwin : now - t0 ≤ windowMs) :
    checkRateLimit [("rate_" ++ ip, ⟨c, t0⟩)] ip now
      = (⟨true, none⟩, [("rate_" ++ ip, ⟨c + 1, t0⟩)]) := by
  unfold checkRateLimit
  simp only [List.lookup, beq_self_eq_true, if_true]
  rw [if_neg (by omega), if_neg (by omega)]
  simp [cacheSet, List.eraseP]

/-- A call inside the window with the quota exhausted is denied with the
ceiling retry-after value; the table is unchanged. -/
theorem checkRateLimit_deny (ip : String) (t0 now c : Nat)
    (hc : maxRequests ≤ c) (hwin : now - t0 ≤ windowMs) :
    checkRateLimit [("rate_" ++ ip, ⟨c, t0⟩)] ip now
      = (⟨false, some ((windowMs - (now - t0) + 999) / 1000)⟩,
         [("rate_" ++ ip, ⟨c, t0⟩)]) := by
  unfold checkRateLimit
  simp only [List.lookup, beq_self_eq_true, if_true]
  rw [if_neg (by omega), if_pos (by omega)]

/-- Unfolding equation for `runRateCalls`. -/
theorem runRateCalls_cons (table : List (String × RateData)) (ip : String)
    (t : Nat) (ts : List Nat) :
    runRateCalls table ip (t :: ts)
      = ((checkRateLimit table ip t).1
           :: (runRateCalls (checkRateLimit table ip t).2 ip ts).1,
         (runRateCalls (checkRateLimit table ip t).2 ip ts).2) := rfl

/-- C6: a client issuing `maxRequests + 1 = 6` calls inside one window
(anchored at the first call) sees the first call create the window with
count 1 and be allowed, the next four increment and be allowed, and the
sixth denied with `retryAfter = ceil((windowMs - (now - windowStart)) /
1000)`, which is positive; the final handler response for the denied call
is the 429 `rateLimited` response carrying exactly that value, with the
state untouched. -/
theorem rate_limit_six_calls (ip : String) (t0 t1 t2 t3 t4 t5 : Nat)
    (h01 : t0 ≤ t1) (h12 : t1 ≤ t2) (h23 : t2 ≤ t3) (h34 : t3 ≤ t4)
    (h45 : t4 ≤ t5) (hwin : t5 - t0 < windowMs) :
    runRateCalls [] ip [t0, t1, t2, t3, t4, t5]
      = ([⟨true, none⟩, ⟨true, none⟩, ⟨true, none⟩, ⟨true, none⟩,
          ⟨true, none⟩,
          ⟨false, some ((windowMs - (t5 - t0) + 999) / 1000)⟩],
         [("rate_" ++ ip, ⟨5, t0⟩)])
    ∧ 0 < (windowMs - (t5 - t0) + 999) / 1000
    ∧ ∀ (a : Int) (vc : List (String × CachedVideo)) (files : List String)
        (host cacheKey : String)
        (dl : ServerState → String → Response × ServerState × Nat),
        isAllowedDomain (some host) = true →
        handler ⟨a, [("rate_" ++ ip, ⟨5, t0⟩)], vc, files⟩ "POST" true
            (some host) ip t5 cacheKey dl
          = (.rateLimited ((windowMs - (t5 - t0) + 999) / 1000),
             ⟨a, [("rate_" ++ ip, ⟨5, t0⟩)], vc, files⟩, 0) := by
  have hm : maxRequests = 5 := rfl
  have e1 := checkRateLimit_first ip t0
  have e2 := checkRateLimit_incr ip t0 t1 1 (by omega) (by omega)
  have e3 := checkRateLimit_incr ip t0 t2 2 (by omega) (by omega)
  have e4 := checkRateLimit_incr ip t0 t3 3 (by omega) (by omega)
  have e5 := checkRateLimit_incr ip t0 t4 4 (by omega) (by omega)
  have e6 := checkRateLimit_deny ip t0 t5 5 (by omega) (by omega)
  have hpos : 0 < (windowMs - (t5 - t0) + 999) / 1000 :=
    Nat.div_pos (by omega) (by norm_num)
  refine ⟨?_, hpos, ?_⟩
  · rw [runRateCalls_cons, e1]
    dsimp only
    rw [runRateCalls_cons, e2]
    dsimp only
    rw [runRateCalls_cons, e3]
    dsimp only
    rw [runRateCalls_cons, e4]
    dsimp only
    rw [runRateCalls_cons, e5]
    dsimp only
    rw [runRateCalls_cons, e6]
    rfl
  · intro a vc files host cacheKey dl hdom
    have hne : (windowMs - (t5 - t0) + 999) / 1000 ≠ 0 :=
      Nat.pos_iff_ne_zero.mp hpos
    simp [handler, hdom, e6, hne]

/-- Witness for C6: six calls from one client at 1-second spacing; the
sixth is denied with `retryAfter = ceil((900000 - 5000) / 1000) = 895`,
and the handler turns it into the 429 response. -/
theorem rate_limit_six_calls_witness :
    runRateCalls [] "1.2.3.4" [0, 1000, 2000, 3000, 4000, 5000]
      = ([⟨true, none⟩, ⟨true, none⟩, ⟨true, none⟩, ⟨true, none⟩,
          ⟨true, none⟩,
          ⟨false, some ((windowMs - (5000 - 0) + 999) / 1000)⟩],
         [("rate_" ++ "1.2.3.4", ⟨5, 0⟩)])
    ∧ 0 < (windowMs - (5000 - 0) + 999) / 1000
    ∧ handler ⟨0, [("rate_" ++ "1.2.3.4", ⟨5, 0⟩)], [], []⟩ "POST" true
        (some "youtube.com") "1.2.3.4" 5000 "k"
        (fun st _ => (.streamed "probe", st, 0))
      = (.rateLimited ((windowMs - (5000 - 0) + 999) / 1000),
         ⟨0, [("rate_" ++ "1.2.3.4", ⟨5, 0⟩)], [], []⟩, 0) := by
  have h := rate_limit_six_calls "1.2.3.4" 0 1000 2000 3000 4000 5000
    (by omega) (by omega) (by omega) (by omega) (by omega) (by decide)
  exact ⟨h.1, h.2.1,
    h.2.2 0 [] [] "youtube.com" "k"
      (fun st _ => (.streamed "probe", st, 0)) (by decide)⟩

/-- C7: a request whose URL hits a valid cache entry (entry present and
its backing artifact on disk) is answered with the cached artifact's
headers, cache status `HIT` and reported elapsed time `"0"`, and the
request performs no slot acquisition (`activeDownloads` unchanged) and no
extraction invocation — the download continuation `dl` is never consulted
(the result is the same for every `dl`) and the invocation count is 0. -/
theorem cache_hit_serves_without_slot_or_extraction (st : ServerState)
    (host ip cacheKey : String) (now : Nat) (cv : CachedVideo)
    (dl : ServerState → String → Response × ServerState × Nat)
    (hdom : isAllowedDomain (some host) = true)
    (hallow : (checkRateLimit st.rateTable ip now).1.allowed = true)
    (hcv : st.videoCache.lookup cacheKey = some cv)
    (hfile : cv.filePath ∈ st.files) :
    handler st "POST" true (some host) ip now cacheKey dl
      = (.cacheHit cv.contentType cv.size cv.filename "HIT" "0",
         { st with rateTable := (checkRateLimit st.rateTable ip now).2 }, 0)
    ∧ (handler st "POST" true (some host) ip now cacheKey dl).2.1.active
        = st.active := by
  have hmain : handler st "POST" true (some host) ip now cacheKey dl
      = (.cacheHit cv.contentType cv.size cv.filename "HIT" "0",
         { st with rateTable := (checkRateLimit st.rateTable ip now).2 }, 0) := by
    simp [handler, hdom, hallow, hcv, hfile]
  exact ⟨hmain, by rw [hmain]⟩

/-- Witness for C7: a concrete state holding a cached entry whose
artifact exists; the request is served `HIT`/`"0"` and `activeDownloads`
stays 2. -/
theorem cache_hit_serves_without_slot_or_extraction_witness :
    handler ⟨2, [], [("k", ⟨"/tmp/cached_k.mp4", "v.mp4", "video/mp4", 10⟩)],
        ["/tmp/cached_k.mp4"]⟩ "POST" true (some "youtube.com") "9.9.9.9" 77
        "k" (fun st _ => (.streamed "probe", st, 0))
      = (.cacheHit "video/mp4" 10 "v.mp4" "HIT" "0",
         { active := 2, rateTable := [("rate_" ++ "9.9.9.9", ⟨1, 77⟩)],
           videoCache := [("k", ⟨"/tmp/cached_k.mp4", "v.mp4", "video/mp4", 10⟩)],
           files := ["/tmp/cached_k.mp4"] }, 0)
    ∧ (handler ⟨2, [], [("k", ⟨"/tmp/cached_k.mp4", "v.mp4", "video/mp4", 10⟩)],
        ["/tmp/cached_k.mp4"]⟩ "POST" true (some "youtube.com") "9.9.9.9" 77
        "k" (fun st _ => (.streamed "probe", st, 0))).2.1.active = 2 := by
  have h := cache_hit_serves_without_slot_or_extraction
    ⟨2, [], [("k", ⟨"/tmp/cached_k.mp4", "v.mp4", "video/mp4", 10⟩)],
      ["/tmp/cached_k.mp4"]⟩ "youtube.com" "9.9.9.9" "k" 77
    ⟨"/tmp/cached_k.mp4", "v.mp4", "video/mp4", 10⟩
    (fun st _ => (.streamed "probe", st, 0))
    (by decide) (by decide) (by decide) (by decide)
  exact ⟨h.1, h.2⟩

/-- A concrete state whose cache holds an entry for key `"k"` while its
backing artifact is absent from disk (`files` does not contain it). -/
def staleState : ServerState :=
  ⟨0, [], [("k", ⟨"/tmp/cached_k.mp4", "v.mp4", "video/mp4", 10⟩)], []⟩

/-- C5 counterexample: with a cache entry whose backing artifact is gone,
the lookup does behave as a miss (the request proceeds to the download
continuation), but the stale entry is NOT removed from the cache — after
the request the entry is still present, refuting "the stale entry is
removed from the cache". -/
theorem stale_cache_entry_not_removed :
    (handler staleState "POST" true (some "youtube.com") "1.2.3.4" 0 "k"
        (fun st _ => (.streamed "probe", st, 0))).1 = .streamed "probe"
    ∧ ¬ ((handler staleState "POST" true (some "youtube.com") "1.2.3.4" 0 "k"
        (fun st _ => (.streamed "probe", st, 0))).2.1.videoCache.lookup "k"
        = none) := by decide

/-- C5 amended: a cache entry whose backing artifact no longer exists is
treated as a miss — the request proceeds past the cache to the download
continuation — but the stale entry is left in the cache (nothing deletes
it); the state handed to the continuation still maps the key to the dead
entry, so a later lookup re-checks the entry's artifact (and misses again
for as long as the artifact is absent) rather than finding the entry
gone. -/
theorem stale_cache_entry_miss_not_purged (st : ServerState)
    (host ip cacheKey : String) (now : Nat) (cv : CachedVideo)
    (dl : ServerState → String → Response × ServerState × Nat)
    (hdom : isAllowedDomain (some host) = true)
    (hallow : (checkRateLimit st.rateTable ip now).1.allowed = true)
    (hcv : st.videoCache.lookup cacheKey = some cv)
    (hfile : cv.filePath ∉ st.files) :
    handler st "POST" true (some host) ip now cacheKey dl
      = dl { st with rateTable := (checkRateLimit st.rateTable ip now).2 }
          cacheKey
    ∧ ({ st with rateTable := (checkRateLimit st.rateTable ip now).2 }
        : ServerState).videoCache.lookup cacheKey = some cv := by
  constructor
  · simp [handler, hdom, hallow, hcv, hfile]
  · simpa using hcv

/-- Witness for C5's amended statement at the concrete stale state. -/
theorem stale_cache_entry_miss_not_purged_witness :
    handler staleState "POST" true (some "youtube.com") "1.2.3.4" 0 "k"
        (fun st _ => (.streamed "probe", st, 0))
      = (fun st _ => ((.streamed "probe" : Response), st, 0))
          { staleState with
              rateTable := (checkRateLimit staleState.rateTable "1.2.3.4" 0).2 }
          "k"
    ∧ ({ staleState with
          rateTable := (checkRateLimit staleState.rateTable "1.2.3.4" 0).2 }
        : ServerState).videoCache.lookup "k"
        = some ⟨"/tmp/cached_k.mp4", "v.mp4", "video/mp4", 10⟩ := by
  have h := stale_cache_entry_miss_not_purged staleState "youtube.com"
    "1.2.3.4" "k" 0 ⟨"/tmp/cached_k.mp4", "v.mp4", "video/mp4", 10⟩
    (fun st _ => (.streamed "probe", st, 0))
    (by decide) (by decide) (by decide) (by decide)
  exact ⟨h.1, h.2⟩

/-- C9: a request whose URL parses but whose host is neither an
allow-listed domain nor a subdomain of one is answered 400 with the state
returned exactly as it was — no rate-limit window is created or mutated
and `activeDownloads` is untouched — and no extraction occurs, whatever
the download continuation would do. -/
theorem disallowed_host_no_side_effects (st : ServerState)
    (host ip cacheKey : String) (now : Nat)
    (dl : ServerState → String → Response × ServerState × Nat)
    (hhost : ∀ d ∈ allowedDomains, lowerStr host ≠ d
        ∧ strEndsWith (lowerStr host) ("." ++ d) = false) :
    handler st "POST" true (some host) ip now cacheKey dl
      = (.badRequest "Domain not supported", st, 0) := by
  have hdom : isAllowedDomain (some host) = false := by
    simp only [isAllowedDomain]
    rw [List.any_eq_false]
    intro d hd
    have h := hhost d hd
    simp [h.1, h.2]
  simp [handler, hdom]

/-- Witness for C9: a request for a host outside the allow-list leaves a
concrete state unchanged and yields 400. -/
theorem disallowed_host_no_side_effects_witness :
    handler ⟨1, [("rate_" ++ "5.5.5.5", ⟨2, 0⟩)], [], []⟩ "POST" true
        (some "evil.com") "5.5.5.5" 50 "k"
        (fun st _ => (.streamed "probe", st, 0))
      = (.badRequest "Domain not supported",
         ⟨1, [("rate_" ++ "5.5.5.5", ⟨2, 0⟩)], [], []⟩, 0) :=
  disallowed_host_no_side_effects ⟨1, [("rate_" ++ "5.5.5.5", ⟨2, 0⟩)], [], []⟩
    "evil.com" "5.5.5.5" "k" 50 (fun st _ => (.streamed "probe", st, 0))
    (by decide)

/-- C10: a request with neither an `x-forwarded-for` header nor a
connection remote address gets the constant client identifier
`"unknown"`; all such requests therefore share the single rate-limit key
`rate_unknown` and one `maxRequests` quota: six header-less requests
inside one window see the sixth denied. -/
theorem unknown_client_shared_window :
    getClientIP none none = "unknown"
    ∧ runRateCalls [] (getClientIP none none) [0, 0, 0, 0, 0, 0]
        = ([⟨true, none⟩, ⟨true, none⟩, ⟨true, none⟩, ⟨true, none⟩,
            ⟨true, none⟩, ⟨false, some 900⟩],
           [("rate_unknown", ⟨5, 0⟩)]) := by decide

end Link2Vid
